import Mathlib

/-!
# FastCaddy: verification of the route/configuration reconciliation logic

A shallow embedding of the FastCaddy client library (a Go client for the
Caddy admin API).  The repository ships its README documentation and
`options.go`; the reconciler, route model, config-tree accessor and
bootstrapper bodies are not part of the shipped sources, so those
operations are modelled from the specification, as noted on each
definition.  `WithSSHClient` is embedded directly from `options.go`.
-/

namespace FastCaddySpec

/-- Modelled from the spec: the JSON values exchanged with the Caddy admin
API (the wire format is JSON over HTTP; the implementation of the route
model is not in the shipped sources).  Only the shapes the client produces
and consumes are needed: strings, booleans, arrays and objects. -/
inductive Json where
  | str (s : String)
  | bool (b : Bool)
  | arr (elems : List Json)
  | obj (fields : List (String × Json))
deriving Repr

mutual

def Json.decEq : (a b : Json) → Decidable (a = b)
  | .str s, .str t =>
    match String.decEq s t with
    | isTrue h => isTrue (by rw [h])
    | isFalse h => isFalse (fun hh => h (by cases hh; rfl))
  | .bool a, .bool b =>
    match Bool.decEq a b with
    | isTrue h => isTrue (by rw [h])
    | isFalse h => isFalse (fun hh => h (by cases hh; rfl))
  | .arr xs, .arr ys =>
    match Json.decEqList xs ys with
    | isTrue h => isTrue (by rw [h])
    | isFalse h => isFalse (fun hh => h (by cases hh; rfl))
  | .obj xs, .obj ys =>
    match Json.decEqFields xs ys with
    | isTrue h => isTrue (by rw [h])
    | isFalse h => isFalse (fun hh => h (by cases hh; rfl))
  | .str _, .bool _ => isFalse (fun h => by cases h)
  | .str _, .arr _ => isFalse (fun h => by cases h)
  | .str _, .obj _ => isFalse (fun h => by cases h)
  | .bool _, .str _ => isFalse (fun h => by cases h)
  | .bool _, .arr _ => isFalse (fun h => by cases h)
  | .bool _, .obj _ => isFalse (fun h => by cases h)
  | .arr _, .str _ => isFalse (fun h => by cases h)
  | .arr _, .bool _ => isFalse (fun h => by cases h)
  | .arr _, .obj _ => isFalse (fun h => by cases h)
  | .obj _, .str _ => isFalse (fun h => by cases h)
  | .obj _, .bool _ => isFalse (fun h => by cases h)
  | .obj _, .arr _ => isFalse (fun h => by cases h)

def Json.decEqList : (a b : List Json) → Decidable (a = b)
  | [], [] => isTrue rfl
  | [], _ :: _ => isFalse (fun h => by cases h)
  | _ :: _, [] => isFalse (fun h => by cases h)
  | x :: xs, y :: ys =>
    match Json.decEq x y, Json.decEqList xs ys with
    | isTrue h1, isTrue h2 => isTrue (by rw [h1, h2])
    | isFalse h1, _ => isFalse (fun hh => h1 (by cases hh; rfl))
    | _, isFalse h2 => isFalse (fun hh => h2 (by cases hh; rfl))

def Json.decEqFields : (a b : List (String × Json)) → Decidable (a = b)
  | [], [] => isTrue rfl
  | [], _ :: _ => isFalse (fun h => by cases h)
  | _ :: _, [] => isFalse (fun h => by cases h)
  | (k, v) :: xs, (k2, v2) :: ys =>
    match String.decEq k k2, Json.decEq v v2, Json.decEqFields xs ys with
    | isTrue h0, isTrue h1, isTrue h2 => isTrue (by rw [h0, h1, h2])
    | isFalse h0, _, _ => isFalse (fun hh => h0 (by cases hh; rfl))
    | _, isFalse h1, _ => isFalse (fun hh => h1 (by cases hh; rfl))
    | _, _, isFalse h2 => isFalse (fun hh => h2 (by cases hh; rfl))

end

instance : DecidableEq Json := Json.decEq

instance {ε α : Type} [DecidableEq ε] [DecidableEq α] :
    DecidableEq (Except ε α) := fun x y =>
  match x, y with
  | .ok a, .ok b =>
    if h : a = b then isTrue (by rw [h])
    else isFalse (fun hh => h (by cases hh; rfl))
  | .error a, .error b =>
    if h : a = b then isTrue (by rw [h])
    else isFalse (fun hh => h (by cases hh; rfl))
  | .ok _, .error _ => isFalse (fun h => by cases h)
  | .error _, .ok _ => isFalse (fun h => by cases h)

/-- Look up a field of a JSON object; `none` when the value is not an
object or the key is absent. -/
def Json.getField : Json → String → Option Json
  | .obj fields, key => fields.lookup key
  | _, _ => none

/-- Modelled from the spec: the error taxonomy of the error-handling
design section (`TransportError`, `NotFound`, `Conflict`, `SchemaError`,
`InvalidSpec`, and `SetupError` wrapping an underlying cause); the error
definitions are not in the shipped sources. -/
inductive FCError where
  | TransportError
  | NotFound
  | Conflict
  | SchemaError
  | InvalidSpec
  | SetupError (cause : FCError)
deriving DecidableEq, Repr

/-- An upstream target of a reverse-proxy handler (`types.Upstream`): a
`dial` address string such as `host:port`. -/
structure Upstream where
  dial : String
deriving DecidableEq, Repr

/-- A handler in the handler chain of a route (`types.Handler`): a type
tag and, for reverse-proxy handlers, the ordered upstream list. -/
structure Handler where
  handler : String
  upstreams : List Upstream
deriving DecidableEq, Repr

/-- A match condition (`types.RouteMatch`): a set of host patterns. -/
structure RouteMatch where
  host : List String
deriving DecidableEq, Repr

/-- A route (`types.Route`): unique string ID, ordered match conditions,
ordered handler chain, terminal flag. -/
structure Route where
  id : String
  «match» : List RouteMatch
  handle : List Handler
  terminal : Bool
deriving DecidableEq, Repr

/-! ## Route model: serialization (`Encode` / `Decode`)

Modelled from the spec: pure data shaping between `Route` and the JSON
schema of the server; the route (de)serialization code is not in the
shipped sources. -/

/-- Modelled from the spec: encode an upstream as an object with a `dial`
address string. -/
def Upstream.encode (u : Upstream) : Json :=
  .obj [("dial", .str u.dial)]

/-- Modelled from the spec: encode a handler as an object carrying its
type tag and its upstream list. -/
def Handler.encode (h : Handler) : Json :=
  .obj [("handler", .str h.handler),
        ("upstreams", .arr (h.upstreams.map Upstream.encode))]

/-- Modelled from the spec: encode a match condition as an object with a
`host` array of host patterns. -/
def RouteMatch.encode (m : RouteMatch) : Json :=
  .obj [("host", .arr (m.host.map Json.str))]

/-- Modelled from the spec: `Encode(Route) → json`. -/
def Route.encode (r : Route) : Json :=
  .obj [("@id", .str r.id),
        ("match", .arr (r.«match».map RouteMatch.encode)),
        ("handle", .arr (r.handle.map Handler.encode)),
        ("terminal", .bool r.terminal)]

/-- Modelled from the spec: decode one upstream; `SchemaError` when the
`dial` field is absent or not a string. -/
def decodeUpstream : Json → Except FCError Upstream
  | .obj fields =>
    match fields.lookup "dial" with
    | some (.str d) => .ok ⟨d⟩
    | _ => .error .SchemaError
  | _ => .error .SchemaError

/-- Modelled from the spec: decode a list of upstreams, failing on the
first malformed element. -/
def decodeUpstreams : List Json → Except FCError (List Upstream)
  | [] => .ok []
  | j :: rest =>
    match decodeUpstream j, decodeUpstreams rest with
    | .ok u, .ok us => .ok (u :: us)
    | .error e, _ => .error e
    | _, .error e => .error e

/-- Modelled from the spec: decode a handler; `SchemaError` when the type
tag is absent, or when a reverse-proxy handler is missing `dial` entries. -/
def decodeHandler : Json → Except FCError Handler
  | .obj fields =>
    match fields.lookup "handler" with
    | some (.str tag) =>
      match fields.lookup "upstreams" with
      | some (.arr us) =>
        match decodeUpstreams us with
        | .ok ups =>
          if tag = "reverse_proxy" ∧ ups = [] then .error .SchemaError
          else .ok ⟨tag, ups⟩
        | .error e => .error e
      | none =>
        if tag = "reverse_proxy" then .error .SchemaError else .ok ⟨tag, []⟩
      | some _ => .error .SchemaError
    | _ => .error .SchemaError
  | _ => .error .SchemaError

/-- Modelled from the spec: decode a list of handlers, failing on the
first malformed element. -/
def decodeHandlers : List Json → Except FCError (List Handler)
  | [] => .ok []
  | j :: rest =>
    match decodeHandler j, decodeHandlers rest with
    | .ok h, .ok hs => .ok (h :: hs)
    | .error e, _ => .error e
    | _, .error e => .error e

/-- Modelled from the spec: decode a `host` array of pattern strings. -/
def decodeHosts : List Json → Except FCError (List String)
  | [] => .ok []
  | .str s :: rest =>
    match decodeHosts rest with
    | .ok hs => .ok (s :: hs)
    | .error e => .error e
  | _ => .error .SchemaError

/-- Modelled from the spec: decode one match condition; `SchemaError`
when the `host` field is absent or structurally wrong. -/
def decodeMatch : Json → Except FCError RouteMatch
  | .obj fields =>
    match fields.lookup "host" with
    | some (.arr hs) =>
      match decodeHosts hs with
      | .ok l => .ok ⟨l⟩
      | .error e => .error e
    | _ => .error .SchemaError
  | _ => .error .SchemaError

/-- Modelled from the spec: decode a list of match conditions. -/
def decodeMatches : List Json → Except FCError (List RouteMatch)
  | [] => .ok []
  | j :: rest =>
    match decodeMatch j, decodeMatches rest with
    | .ok m, .ok ms => .ok (m :: ms)
    | .error e, _ => .error e
    | _, .error e => .error e

/-- Modelled from the spec: `Decode(json) → (Route, error)`; fails with
`SchemaError` when required fields (ID, match, handle) are absent or
structurally wrong.  The `terminal` flag defaults to `false` when absent. -/
def Route.decode (j : Json) : Except FCError Route :=
  match j.getField "@id", j.getField "match", j.getField "handle" with
  | some (.str i), some (.arr ms), some (.arr hs) =>
    match decodeMatches ms, decodeHandlers hs with
    | .ok mats, .ok hands =>
      match j.getField "terminal" with
      | some (.bool b) => .ok ⟨i, mats, hands, b⟩
      | none => .ok ⟨i, mats, hands, false⟩
      | some _ => .error .SchemaError
    | .error e, _ => .error e
    | _, .error e => .error e
  | _, _, _ => .error .SchemaError

/-- Structural validity of a route: every reverse-proxy handler carries at
least one upstream `dial` entry (the shape `Decode` insists on; ID, match,
handle and the terminal flag are always present on the record itself). -/
def Route.Valid (r : Route) : Prop :=
  ∀ h ∈ r.handle, h.handler = "reverse_proxy" → h.upstreams ≠ []

instance (r : Route) : Decidable r.Valid := by
  unfold Route.Valid; infer_instance

/-! ## Route reconciler

Modelled from the spec: the reconciler fetches the current route list,
decides to create, replace or skip by ID, and writes the list back; its
code is not in the shipped sources.  The fetched route list is passed
explicitly and the written-back list is returned on success; a returned
error means no write-back happened. -/

/-- Modelled from the spec: `HasID(id) → bool`, a derived convenience
that searches the route list for a matching ID. -/
def HasID (routes : List Route) (i : String) : Bool :=
  routes.any (fun r => r.id == i)

/-- Modelled from the spec: `AddRoute(route) → error`; fails with
`Conflict` when a route with the same ID exists (no silent overwrite),
otherwise appends the route and writes back the full list (last
priority). -/
def AddRoute (r : Route) (routes : List Route) : Except FCError (List Route) :=
  if HasID routes r.id then .error .Conflict
  else .ok (routes ++ [r])

/-- Modelled from the spec: `DeleteRoute(id) → error`; filters out any
route with matching ID and writes back the filtered list; a no-op success
when the ID was not present, never `NotFound`. -/
def DeleteRoute (i : String) (routes : List Route) : Except FCError (List Route) :=
  .ok (routes.filter (fun r => r.id != i))

/-- The route list left on the server after running a reconciler
operation: the written-back list on success, the fetched list untouched
when the operation returned an error before writing. -/
def applyReconcile (op : List Route → Except FCError (List Route))
    (routes : List Route) : List Route :=
  match op routes with
  | .ok l => l
  | .error _ => routes

/-- Modelled from the spec: the target host of a WildcardSpec defaults to
loopback when empty. -/
def defaultHost (host : String) : String :=
  if host = "" then "localhost" else host

/-- Modelled from the spec: expand a WildcardSpec into a Route with one
upstream `dial` entry per port (`host:port`, in port-list order) and ID
derived from `subdomain.domain`. -/
def mkSubRoute (domain subdomain : String) (ports : List String)
    (host : String) : Route :=
  { id := subdomain ++ "." ++ domain
  , «match» := [⟨[subdomain ++ "." ++ domain]⟩]
  , handle := [⟨"reverse_proxy",
      ports.map (fun p => ⟨defaultHost host ++ ":" ++ p⟩)⟩]
  , terminal := true }

/-- Modelled from the spec: `AddSubReverseProxy(domain, subdomain, ports,
host?) → error`; fails with `InvalidSpec` when `ports` is empty, otherwise
adds the expanded route through `AddRoute`. -/
def AddSubReverseProxy (domain subdomain : String) (ports : List String)
    (host : String) (routes : List Route) : Except FCError (List Route) :=
  if ports = [] then .error .InvalidSpec
  else AddRoute (mkSubRoute domain subdomain ports host) routes

/-! ## Config tree accessor

Modelled from the spec: reads and writes arbitrary subtrees of the server
JSON configuration by slash-delimited path; the accessor code is not in
the shipped sources.  A path is modelled as its list of slash-separated
segments, and the reachable server state as a flat association of paths
to subtree values together with the health of the admin transport. -/

/-- Modelled from the spec: a slash-delimited hierarchical address into
the configuration tree, as its list of segments. -/
abbrev ConfigPath := List String

/-- Modelled from the spec: the remote server as seen through the admin
API — the addressable subtrees, plus whether the transport is reachable
(an unreachable transport fails every request). -/
structure ServerState where
  tree : List (ConfigPath × Json)
  netOk : Bool
deriving DecidableEq, Repr

/-- Fetch the subtree bound to a path, if any. -/
def treeGet : List (ConfigPath × Json) → ConfigPath → Option Json
  | [], _ => none
  | (k, v) :: rest, p => if k = p then some v else treeGet rest p

/-- Remove every binding of a path. -/
def treeRemove : List (ConfigPath × Json) → ConfigPath → List (ConfigPath × Json)
  | [], _ => []
  | (k, v) :: rest, p =>
    if k = p then treeRemove rest p else (k, v) :: treeRemove rest p

/-- Modelled from the spec: `GetConfig(path) → (json, error)`; `NotFound`
when the path does not exist, `TransportError` on network failure. -/
def GetConfig (s : ServerState) (p : ConfigPath) : Except FCError Json :=
  if s.netOk then
    match treeGet s.tree p with
    | some j => .ok j
    | none => .error .NotFound
  else .error .TransportError

/-- Modelled from the spec: `PutConfig(path, value) → error`; replaces
the subtree at the path wholesale. -/
def PutConfig (s : ServerState) (p : ConfigPath) (v : Json) :
    Except FCError ServerState :=
  if s.netOk then .ok { s with tree := (p, v) :: treeRemove s.tree p }
  else .error .TransportError

/-- Modelled from the spec: `HasPath(path) → bool`; an existence probe
that treats `NotFound` as `false` and any other error as `false` with the
error discarded. -/
def HasPath (s : ServerState) (p : ConfigPath) : Bool :=
  match GetConfig s p with
  | .ok _ => true
  | .error _ => false

/-! ## Environment bootstrapper

Modelled from the spec: `SetupCaddy` is an idempotent multi-step sequence
(HTTP app, named server, TLS policy); its code is not in the shipped
sources. -/

/-- Modelled from the spec: the path of the HTTP app. -/
def httpAppPath : ConfigPath := ["apps", "http"]

/-- Modelled from the spec: the path of the named server under the HTTP
app. -/
def serverPath (name : String) : ConfigPath := ["apps", "http", "servers", name]

/-- Modelled from the spec: the path of the TLS automation policies. -/
def tlsPolicyPath : ConfigPath := ["apps", "tls", "automation", "policies"]

/-- Modelled from the spec: the baseline HTTP app subtree. -/
def httpAppConfig : Json := .obj [("servers", .obj [])]

/-- Modelled from the spec: the baseline named-server subtree. -/
def serverConfig : Json :=
  .obj [("listen", .arr [.str ":443"]), ("routes", .arr [])]

/-- Modelled from the spec: the desired TLS policy — internal CA when
local certificates are requested, else ACME with a DNS-01 challenge
configured from the provided token. -/
def tlsConfig (useLocalCerts : Bool) (cfToken : String) : Json :=
  if useLocalCerts then
    .arr [.obj [("issuers", .arr [.obj [("module", .str "internal")]])]]
  else
    .arr [.obj [("issuers", .arr [.obj
      [("module", .str "acme"),
       ("challenges", .obj [("dns", .obj
         [("provider", .obj
           [("name", .str "cloudflare"),
            ("api_token", .str cfToken)])])])]])]]

/-- Modelled from the spec: one bootstrapper step — read the current
subtree, skip when it already equals the desired state, write otherwise;
a failing read or write makes the step fail with `SetupError` wrapping
the underlying error. -/
def ensureStep (p : ConfigPath) (desired : Json) (s : ServerState) :
    Except FCError ServerState :=
  match GetConfig s p with
  | .ok current =>
    if current = desired then .ok s
    else
      match PutConfig s p desired with
      | .ok s2 => .ok s2
      | .error e => .error (.SetupError e)
  | .error .NotFound =>
    match PutConfig s p desired with
    | .ok s2 => .ok s2
    | .error e => .error (.SetupError e)
  | .error e => .error (.SetupError e)

/-- Modelled from the spec: `SetupCaddy(cfTokenOrEmpty, serverName,
useLocalCerts, options) → error`; ensures the HTTP app, the named server
and the requested TLS policy in order, stopping at the first failing
step.  (The trailing functional-options argument carries no semantics in
the spec and is omitted.) -/
def SetupCaddy (cfToken serverName : String) (useLocalCerts : Bool)
    (s : ServerState) : Except FCError ServerState := do
  let s1 ← ensureStep httpAppPath httpAppConfig s
  let s2 ← ensureStep (serverPath serverName) serverConfig s1
  ensureStep tlsPolicyPath (tlsConfig useLocalCerts cfToken) s2

/-! ## Batch variants

Modelled from the spec: batch variants apply operations sequentially, stop
at the first failure, report which operations succeeded and which failed,
and never roll back already-applied changes; the batch code is not in the
shipped sources. -/

/-- Modelled from the spec: a single reconciler operation submitted to a
batch variant. -/
inductive BatchOp where
  | add (r : Route)
  | del (i : String)
deriving DecidableEq, Repr

/-- Apply one batch operation to the current route list. -/
def applyOp : BatchOp → List Route → Except FCError (List Route)
  | .add r, routes => AddRoute r routes
  | .del i, routes => DeleteRoute i routes

/-- Modelled from the spec: the explicit batch report — how many leading
operations succeeded, the error of the failing operation if any, and the
route list left on the server. -/
structure BatchResult where
  succeeded : Nat
  failure : Option FCError
  state : List Route
deriving DecidableEq, Repr

/-- Modelled from the spec: run a batch sequentially, stopping at the
first failure; already-applied operations stay applied. -/
def RunBatch : List BatchOp → List Route → BatchResult
  | [], routes => ⟨0, none, routes⟩
  | op :: rest, routes =>
    match applyOp op routes with
    | .ok routes2 =>
      let r := RunBatch rest routes2
      ⟨r.succeeded + 1, r.failure, r.state⟩
    | .error e => ⟨0, some e, routes⟩

/-- Apply a whole operation list, `none` as soon as any operation fails. -/
def applyAll : List BatchOp → List Route → Option (List Route)
  | [], routes => some routes
  | op :: rest, routes =>
    match applyOp op routes with
    | .ok routes2 => applyAll rest routes2
    | .error _ => none

/-! ## Functional options (`options.go`) -/

/-- A handle to an SSH client (`*ssh.Client` from the external ssh
package); opaque to this library, modelled as an abstract identifier.
`none` models the nil pointer. -/
structure SSHConn where
  conn : Nat
deriving DecidableEq, Repr

/-- The FastCaddy client record.  `options.go` assigns its `sshClient`
field; the rest of its configuration (modelled from the spec: an explicit
client object holding the admin base URL) is the `baseURL` field. -/
structure FastCaddy where
  baseURL : String
  sshClient : Option SSHConn
deriving DecidableEq, Repr

/-- `Option` from `options.go`: a functional option for configuring the
FastCaddy client (named `FCOption` here; `Option` is taken in Lean). -/
abbrev FCOption := FastCaddy → FastCaddy

/-- `WithSSHClient` from `options.go`: provides an SSH client to tunnel
Caddy API requests through; the returned option assigns the `sshClient`
field and nothing else. -/
def WithSSHClient (client : Option SSHConn) : FCOption :=
  fun fc => { fc with sshClient := client }

/-! ## Concrete sample data used to evaluate the development -/

/-- A concrete route used to evaluate the operations on explicit input. -/
def sampleRoute : Route :=
  { id := "api.example.com"
  , «match» := [⟨["api.example.com"]⟩]
  , handle := [⟨"reverse_proxy", [⟨"localhost:8080"⟩]⟩]
  , terminal := true }

/-- A fresh, reachable server with an empty configuration tree. -/
def freshServer : ServerState := ⟨[], true⟩

/-- The server state after `SetupCaddy "" "srv0" true` on `freshServer`. -/
def setupResult : ServerState :=
  ⟨[(tlsPolicyPath, tlsConfig true ""), (serverPath "srv0", serverConfig),
    (httpAppPath, httpAppConfig)], true⟩

/-- A concrete batch whose second operation fails with `Conflict`. -/
def batchOpsSample : List BatchOp :=
  [.add sampleRoute, .add sampleRoute, .del "x"]

/-! ## Theorems -/

/-- C10: applying `WithSSHClient c` sets the `sshClient` field to `c`,
leaves every other field of the client unchanged, and a later
`WithSSHClient b` overrides an earlier `WithSSHClient a` (last option
wins). -/
theorem withSSHClient_frame (fc : FastCaddy) (a b c : Option SSHConn) :
    (WithSSHClient c fc).sshClient = c ∧
    (WithSSHClient c fc).baseURL = fc.baseURL ∧
    (WithSSHClient b (WithSSHClient a fc)).sshClient = b :=
  ⟨rfl, rfl, rfl⟩

/-- C2: `DeleteRoute i` never returns an error, the resulting route list
contains no route with ID `i`, and deleting again returns the same list
unchanged (idempotence). -/
theorem deleteRoute_idempotent (i : String) (routes : List Route) :
    ∃ l, DeleteRoute i routes = .ok l ∧ (∀ r ∈ l, r.id ≠ i) ∧
      DeleteRoute i l = .ok l := by
  refine ⟨routes.filter (fun r => r.id != i), rfl, ?_, ?_⟩
  · intro r hr
    have := List.of_mem_filter hr
    simpa using this
  · simp only [DeleteRoute, List.filter_filter, Bool.and_self]

/-- C5: `AddSubReverseProxy` with an empty port list fails with
`InvalidSpec` and leaves the server route list unchanged. -/
theorem addSubReverseProxy_empty_ports (domain subdomain host : String)
    (routes : List Route) :
    AddSubReverseProxy domain subdomain [] host routes = .error .InvalidSpec ∧
    applyReconcile (AddSubReverseProxy domain subdomain [] host) routes
      = routes := by
  constructor <;> simp [AddSubReverseProxy, applyReconcile]

/-- C9: a successful `AddRoute r` writes back exactly the fetched list
with `r` appended at the end: every pre-existing route is unchanged and
keeps its relative order, and `r` is the final (lowest-priority)
element. -/
theorem addRoute_appends (r : Route) (routes l : List Route)
    (h : AddRoute r routes = .ok l) :
    l = routes ++ [r] ∧ l.getLast? = some r := by
  unfold AddRoute at h
  by_cases hid : HasID routes r.id
  · simp [hid] at h
  · simp only [hid, if_neg, Bool.false_eq_true, not_false_eq_true,
      Except.ok.injEq, reduceIte] at h
    subst h
    exact ⟨rfl, by simp⟩

/-- C9 witness: adding the sample route to a one-route list with a
different ID appends it at the end. -/
theorem addRoute_appends_witness :
    [{ sampleRoute with id := "web.example.com" }, sampleRoute]
      = [{ sampleRoute with id := "web.example.com" }] ++ [sampleRoute] ∧
    [{ sampleRoute with id := "web.example.com" }, sampleRoute].getLast?
      = some sampleRoute :=
  addRoute_appends sampleRoute [{ sampleRoute with id := "web.example.com" }]
    [{ sampleRoute with id := "web.example.com" }, sampleRoute] (by decide)

/-- C1: if `AddRoute r` succeeds, a second `AddRoute r` on the written
list fails with `Conflict`, the route list is left unchanged by the
failed call, and the list still holds exactly one route with that ID. -/
theorem addRoute_conflict_on_second (r : Route) (routes routes2 : List Route)
    (h : AddRoute r routes = .ok routes2) :
    AddRoute r routes2 = .error .Conflict ∧
    applyReconcile (AddRoute r) routes2 = routes2 ∧
    routes2.countP (fun x => x.id == r.id) = 1 := by
  unfold AddRoute at h
  by_cases hid : HasID routes r.id
  · simp [hid] at h
  · simp only [hid, Bool.false_eq_true, not_false_eq_true,
      Except.ok.injEq, reduceIte] at h
    subst h
    have hmem : HasID (routes ++ [r]) r.id = true := by
      simp [HasID]
    refine ⟨by simp [AddRoute, hmem], by simp [applyReconcile, AddRoute, hmem], ?_⟩
    have hzero : routes.countP (fun x => x.id == r.id) = 0 := by
      rw [List.countP_eq_zero]
      intro x hx
      have hall := List.any_eq_false.mp (Bool.not_eq_true _ |>.mp hid) x hx
      simpa using hall
    simp [List.countP_append, hzero, List.countP_cons]

/-- C1 witness: adding the sample route twice to an empty server. -/
theorem addRoute_conflict_on_second_witness :
    AddRoute sampleRoute [sampleRoute] = .error .Conflict ∧
    applyReconcile (AddRoute sampleRoute) [sampleRoute] = [sampleRoute] ∧
    [sampleRoute].countP (fun x => x.id == sampleRoute.id) = 1 :=
  addRoute_conflict_on_second sampleRoute [] [sampleRoute] (by decide)

/-- C6: `HasPath` returns `false` whenever `GetConfig` fails — both on
`NotFound` for an absent path and on any other error, the error being
discarded — and returns `true` for a path immediately after a successful
`PutConfig` to that same path. -/
theorem hasPath_spec (s s2 : ServerState) (p : ConfigPath) (v : Json) :
    (∀ e, GetConfig s p = .error e → HasPath s p = false) ∧
    (PutConfig s p v = .ok s2 → HasPath s2 p = true) := by
  constructor
  · intro e he
    simp [HasPath, he]
  · intro hput
    unfold PutConfig at hput
    by_cases hn : s.netOk
    · simp only [hn, reduceIte, Except.ok.injEq] at hput
      subst hput
      simp [HasPath, GetConfig, hn, treeGet]
    · simp [hn] at hput

/-- C6 witness: probing an absent path on a fresh server, and probing a
path just written by `PutConfig`. -/
theorem hasPath_spec_witness :
    HasPath freshServer ["nonexistent"] = false ∧
    HasPath ⟨[(["a"], Json.bool true)], true⟩ ["a"] = true :=
  ⟨(hasPath_spec freshServer freshServer ["nonexistent"] (.bool true)).1
      .NotFound (by decide),
   (hasPath_spec freshServer ⟨[(["a"], Json.bool true)], true⟩ ["a"]
      (.bool true)).2 (by decide)⟩

/-- C4: with a non-empty port list, `AddSubReverseProxy` adds (through
`AddRoute`) a route whose ID is `subdomain.domain` and whose single
reverse-proxy handler dials exactly one `host:port` upstream per port, in
port-list order, the host defaulting to loopback when empty. -/
theorem addSubReverseProxy_shape (domain subdomain host : String)
    (ports : List String) (routes : List Route) (hP : ports ≠ []) :
    AddSubReverseProxy domain subdomain ports host routes
      = AddRoute (mkSubRoute domain subdomain ports host) routes ∧
    (mkSubRoute domain subdomain ports host).id = subdomain ++ "." ++ domain ∧
    (mkSubRoute domain subdomain ports host).handle.map
        (fun h => (h.handler, h.upstreams.map Upstream.dial))
      = [("reverse_proxy", ports.map (fun p => defaultHost host ++ ":" ++ p))] ∧
    (host = "" → defaultHost host = "localhost") := by
  refine ⟨by simp [AddSubReverseProxy, hP], rfl, ?_, ?_⟩
  · simp [mkSubRoute]
  · intro h
    simp [defaultHost, h]

/-- C4 witness: ports 3000 and 3001 with an empty host yield upstreams
`localhost:3000` and `localhost:3001` and ID `web.example.com`. -/
theorem addSubReverseProxy_shape_witness :
    AddSubReverseProxy "example.com" "web" ["3000", "3001"] "" []
      = AddRoute (mkSubRoute "example.com" "web" ["3000", "3001"] "") [] ∧
    (mkSubRoute "example.com" "web" ["3000", "3001"] "").id
      = "web" ++ "." ++ "example.com" ∧
    (mkSubRoute "example.com" "web" ["3000", "3001"] "").handle.map
        (fun h => (h.handler, h.upstreams.map Upstream.dial))
      = [("reverse_proxy",
          ["3000", "3001"].map (fun p => defaultHost "" ++ ":" ++ p))] ∧
    ("" = "" → defaultHost "" = "localhost") :=
  addSubReverseProxy_shape "example.com" "web" "" ["3000", "3001"] []
    (by decide)

theorem decodeUpstreams_encode (us : List Upstream) :
    decodeUpstreams (us.map Upstream.encode) = .ok us := by
  induction us with
  | nil => rfl
  | cons u rest ih =>
    simp [decodeUpstreams, decodeUpstream, Upstream.encode, List.lookup, ih]

theorem decodeHandler_encode (h : Handler)
    (hv : h.handler = "reverse_proxy" → h.upstreams ≠ []) :
    decodeHandler h.encode = .ok h := by
  unfold decodeHandler Handler.encode
  simp only [List.lookup, beq_self_eq_true, reduceCtorEq,
    String.reduceBEq]
  rw [decodeUpstreams_encode]
  by_cases hc : h.handler = "reverse_proxy" ∧ h.upstreams = []
  · exact absurd hc.2 (hv hc.1)
  · simp [hc]

theorem decodeHandlers_encode (hs : List Handler)
    (hv : ∀ h ∈ hs, h.handler = "reverse_proxy" → h.upstreams ≠ []) :
    decodeHandlers (hs.map Handler.encode) = .ok hs := by
  induction hs with
  | nil => rfl
  | cons h rest ih =>
    have h1 := decodeHandler_encode h (hv h (by simp))
    have h2 := ih (fun x hx => hv x (by simp [hx]))
    simp [decodeHandlers, h1, h2]

theorem decodeHosts_encode (hs : List String) :
    decodeHosts (hs.map Json.str) = .ok hs := by
  induction hs with
  | nil => rfl
  | cons s rest ih => simp [decodeHosts, ih]

theorem decodeMatch_encode (m : RouteMatch) :
    decodeMatch m.encode = .ok m := by
  unfold decodeMatch RouteMatch.encode
  simp [List.lookup, decodeHosts_encode]

theorem decodeMatches_encode (ms : List RouteMatch) :
    decodeMatches (ms.map RouteMatch.encode) = .ok ms := by
  induction ms with
  | nil => rfl
  | cons m rest ih => simp [decodeMatches, decodeMatch_encode, ih]

/-- C3: for every structurally valid route (every reverse-proxy handler
carries at least one upstream `dial` entry), decoding the encoding gives
back the same route. -/
theorem decode_encode_roundtrip (r : Route) (hv : r.Valid) :
    Route.decode (Route.encode r) = .ok r := by
  unfold Route.decode Route.encode Json.getField
  simp only [List.lookup, beq_self_eq_true, reduceCtorEq,
    String.reduceBEq]
  rw [decodeMatches_encode, decodeHandlers_encode r.handle hv]

/-- C3 witness: the round trip on the concrete sample route. -/
theorem decode_encode_roundtrip_witness :
    Route.decode (Route.encode sampleRoute) = .ok sampleRoute :=
  decode_encode_roundtrip sampleRoute (by decide)

theorem treeGet_remove_ne (p q : ConfigPath) (h : q ≠ p)
    (t : List (ConfigPath × Json)) :
    treeGet (treeRemove t p) q = treeGet t q := by
  induction t with
  | nil => rfl
  | cons kv rest ih =>
    obtain ⟨k, v⟩ := kv
    by_cases hk : k = p
    · have hpq : ¬ p = q := fun hpq => h hpq.symm
      subst hk
      simp [treeRemove, treeGet, hpq, ih]
    · by_cases hkq : k = q
      · subst hkq
        simp [treeRemove, treeGet, hk]
      · simp [treeRemove, treeGet, hk, hkq, ih]

theorem getConfig_ok (s : ServerState) (p : ConfigPath) (j : Json)
    (h : GetConfig s p = .ok j) :
    s.netOk = true ∧ treeGet s.tree p = some j := by
  unfold GetConfig at h
  by_cases hn : s.netOk
  · refine ⟨hn, ?_⟩
    cases hg : treeGet s.tree p with
    | some x =>
      rw [hg] at h
      simp only [hn, reduceIte, Except.ok.injEq] at h
      rw [h]
    | none => rw [hg] at h; simp [hn] at h
  · simp [hn] at h

theorem getConfig_of (s : ServerState) (p : ConfigPath) (j : Json)
    (hn : s.netOk = true) (hg : treeGet s.tree p = some j) :
    GetConfig s p = .ok j := by
  unfold GetConfig
  simp [hn, hg]

theorem putConfig_ok (s : ServerState) (p : ConfigPath) (v : Json)
    (s2 : ServerState) (h : PutConfig s p v = .ok s2) :
    s.netOk = true ∧ s2 = ⟨(p, v) :: treeRemove s.tree p, true⟩ := by
  unfold PutConfig at h
  by_cases hn : s.netOk
  · simp only [hn, reduceIte, Except.ok.injEq] at h
    exact ⟨hn, h.symm⟩
  · simp [hn] at h

theorem ensureStep_ok (p : ConfigPath) (v : Json) (s s2 : ServerState)
    (h : ensureStep p v s = .ok s2) :
    s2.netOk = true ∧ treeGet s2.tree p = some v ∧
      ∀ q, q ≠ p → treeGet s2.tree q = treeGet s.tree q := by
  unfold ensureStep at h
  cases hg : GetConfig s p with
  | ok cur =>
    rw [hg] at h
    obtain ⟨hn, htg⟩ := getConfig_ok s p cur hg
    by_cases hcv : cur = v
    · simp only [hcv, reduceIte, Except.ok.injEq] at h
      subst h
      exact ⟨hn, hcv ▸ htg, fun _ _ => rfl⟩
    · simp only [hcv, reduceIte] at h
      cases hput : PutConfig s p v with
      | ok s3 =>
        rw [hput] at h
        simp only [Except.ok.injEq] at h
        subst h
        obtain ⟨_, hs3⟩ := putConfig_ok s p v s3 hput
        subst hs3
        refine ⟨rfl, by simp [treeGet], fun q hq => ?_⟩
        have hpq : ¬ p = q := fun hpq => hq hpq.symm
        simp [treeGet, hpq, treeGet_remove_ne p q hq s.tree]
      | error e => rw [hput] at h; simp at h
  | error e =>
    rw [hg] at h
    cases e with
    | NotFound =>
      cases hput : PutConfig s p v with
      | ok s3 =>
        rw [hput] at h
        simp only [Except.ok.injEq] at h
        subst h
        obtain ⟨hn, hs3⟩ := putConfig_ok s p v s3 hput
        subst hs3
        refine ⟨rfl, by simp [treeGet], fun q hq => ?_⟩
        have hpq : ¬ p = q := fun hpq => hq hpq.symm
        simp [treeGet, hpq, treeGet_remove_ne p q hq s.tree]
      | error e2 => rw [hput] at h; simp at h
    | TransportError => simp at h
    | Conflict => simp at h
    | SchemaError => simp at h
    | InvalidSpec => simp at h
    | SetupError c => simp at h

theorem ensureStep_skip (p : ConfigPath) (v : Json) (s : ServerState)
    (h : GetConfig s p = .ok v) : ensureStep p v s = .ok s := by
  unfold ensureStep
  rw [h]
  simp

/-- C7: a successful `SetupCaddy` leaves the HTTP app, the named server
and the requested TLS policy readable at their paths, and a second
identical call succeeds while writing nothing (it returns the state it was
given); when the first step fails, that failure is the whole result (no
later step runs), and in particular an unreachable transport makes
`SetupCaddy` fail with `SetupError` wrapping the `TransportError` of the
failing step. -/
theorem setupCaddy_spec (cfToken name : String) (lc : Bool)
    (s s2 : ServerState) :
    (SetupCaddy cfToken name lc s = .ok s2 →
       GetConfig s2 httpAppPath = .ok httpAppConfig ∧
       GetConfig s2 (serverPath name) = .ok serverConfig ∧
       GetConfig s2 tlsPolicyPath = .ok (tlsConfig lc cfToken) ∧
       SetupCaddy cfToken name lc s2 = .ok s2) ∧
    (∀ e, ensureStep httpAppPath httpAppConfig s = .error e →
       SetupCaddy cfToken name lc s = .error e) ∧
    (s.netOk = false →
       SetupCaddy cfToken name lc s
         = .error (.SetupError .TransportError)) := by
  have ne12 : httpAppPath ≠ serverPath name := by simp [httpAppPath, serverPath]
  have ne13 : httpAppPath ≠ tlsPolicyPath := by decide
  have ne23 : serverPath name ≠ tlsPolicyPath := by
    simp [serverPath, tlsPolicyPath]
  refine ⟨?_, ?_, ?_⟩
  · intro h
    unfold SetupCaddy at h
    cases h1 : ensureStep httpAppPath httpAppConfig s with
    | error e => rw [h1] at h; simp [Bind.bind, Except.bind] at h
    | ok sa =>
      rw [h1] at h
      simp only [Bind.bind, Except.bind] at h
      cases h2 : ensureStep (serverPath name) serverConfig sa with
      | error e => rw [h2] at h; simp at h
      | ok sb =>
        rw [h2] at h
        simp only [] at h
        obtain ⟨hn1, hg1, hp1⟩ := ensureStep_ok _ _ _ _ h1
        obtain ⟨hn2, hg2, hp2⟩ := ensureStep_ok _ _ _ _ h2
        obtain ⟨hn3, hg3, hp3⟩ := ensureStep_ok _ _ _ _ h
        have t1 : treeGet s2.tree httpAppPath = some httpAppConfig := by
          rw [hp3 _ ne13, hp2 _ ne12]; exact hg1
        have t2 : treeGet s2.tree (serverPath name) = some serverConfig := by
          rw [hp3 _ ne23]; exact hg2
        have g1 := getConfig_of s2 httpAppPath httpAppConfig hn3 t1
        have g2 := getConfig_of s2 (serverPath name) serverConfig hn3 t2
        have g3 := getConfig_of s2 tlsPolicyPath (tlsConfig lc cfToken) hn3 hg3
        refine ⟨g1, g2, g3, ?_⟩
        unfold SetupCaddy
        rw [ensureStep_skip _ _ _ g1]
        simp only [Bind.bind, Except.bind]
        rw [ensureStep_skip _ _ _ g2]
        exact ensureStep_skip _ _ _ g3
  · intro e he
    unfold SetupCaddy
    rw [he]
    simp [Bind.bind, Except.bind]
  · intro hn
    have hg : GetConfig s httpAppPath = .error .TransportError := by
      unfold GetConfig
      simp [hn]
    have h1 : ensureStep httpAppPath httpAppConfig s
        = .error (.SetupError .TransportError) := by
      unfold ensureStep
      rw [hg]
    unfold SetupCaddy
    rw [h1]
    simp [Bind.bind, Except.bind]

/-- C7 witness: `SetupCaddy "" "srv0" true` on a fresh server creates the
HTTP app, server `srv0` and the internal TLS policy, and the second
identical call returns its input state unchanged. -/
theorem setupCaddy_spec_witness :
    GetConfig setupResult httpAppPath = .ok httpAppConfig ∧
    GetConfig setupResult (serverPath "srv0") = .ok serverConfig ∧
    GetConfig setupResult tlsPolicyPath = .ok (tlsConfig true "") ∧
    SetupCaddy "" "srv0" true setupResult = .ok setupResult :=
  (setupCaddy_spec "" "srv0" true freshServer setupResult).1 (by decide)

/-- C8: a batch applies its operations sequentially in order: when no
operation fails, every operation is applied; when one fails, the report
names how many leading operations succeeded, the final route list is
exactly the one after those successful operations (no rollback), the next
operation is the failing one with the reported error, and the operations
after it are never attempted (the run equals the run of the truncated
batch). -/
theorem runBatch_spec (ops : List BatchOp) (routes : List Route) :
    ((RunBatch ops routes).failure = none →
       (RunBatch ops routes).succeeded = ops.length ∧
       applyAll ops routes = some (RunBatch ops routes).state) ∧
    (∀ e, (RunBatch ops routes).failure = some e →
       (RunBatch ops routes).succeeded < ops.length ∧
       applyAll (ops.take (RunBatch ops routes).succeeded) routes
         = some (RunBatch ops routes).state ∧
       (∃ op, ops[(RunBatch ops routes).succeeded]? = some op ∧
         applyOp op (RunBatch ops routes).state = .error e) ∧
       RunBatch ops routes
         = RunBatch (ops.take ((RunBatch ops routes).succeeded + 1)) routes) := by
  induction ops generalizing routes with
  | nil =>
    refine ⟨fun _ => ⟨rfl, rfl⟩, fun e he => ?_⟩
    simp [RunBatch] at he
  | cons op rest ih =>
    cases happ : applyOp op routes with
    | error e0 =>
      have hr : RunBatch (op :: rest) routes = ⟨0, some e0, routes⟩ := by
        simp [RunBatch, happ]
      refine ⟨fun hnone => ?_, fun e he => ?_⟩
      · rw [hr] at hnone; simp at hnone
      · rw [hr] at he
        simp only [Option.some.injEq] at he
        subst he
        rw [hr]
        refine ⟨by simp, by simp [applyAll], ⟨op, by simp, happ⟩, ?_⟩
        simp [RunBatch, happ]
    | ok routes2 =>
      have hr : RunBatch (op :: rest) routes
          = ⟨(RunBatch rest routes2).succeeded + 1,
             (RunBatch rest routes2).failure,
             (RunBatch rest routes2).state⟩ := by
        simp [RunBatch, happ]
      obtain ⟨ih1, ih2⟩ := ih routes2
      refine ⟨fun hnone => ?_, fun e he => ?_⟩
      · rw [hr] at hnone
        obtain ⟨hlen, happly⟩ := ih1 hnone
        rw [hr]
        exact ⟨by simp [hlen], by simp [applyAll, happ, happly]⟩
      · rw [hr] at he
        obtain ⟨hlt, happly, ⟨opk, hget, herr⟩, hstop⟩ := ih2 e he
        rw [hr]
        refine ⟨by simpa using Nat.succ_lt_succ hlt, ?_, ⟨opk, ?_, herr⟩, ?_⟩
        · simp [applyAll, happ, happly]
        · simpa using hget
        · simp only [List.take_succ_cons, RunBatch, happ, ← hstop]

/-- C8 witness: a three-operation batch whose second operation hits a
`Conflict` — one operation succeeded and stays applied, the failing
operation is reported, and the third operation is never attempted. -/
theorem runBatch_spec_witness :
    (RunBatch batchOpsSample []).succeeded < batchOpsSample.length ∧
    applyAll (batchOpsSample.take (RunBatch batchOpsSample []).succeeded) []
      = some (RunBatch batchOpsSample []).state ∧
    (∃ op, batchOpsSample[(RunBatch batchOpsSample []).succeeded]? = some op ∧
      applyOp op (RunBatch batchOpsSample []).state = .error .Conflict) ∧
    RunBatch batchOpsSample []
      = RunBatch (batchOpsSample.take
          ((RunBatch batchOpsSample []).succeeded + 1)) [] :=
  (runBatch_spec batchOpsSample []).2 .Conflict (by decide)

end FastCaddySpec
